import Mathlib

/-!
# Verification of the polymarketbot trade-replication core

Shallow embedding of the core components of the `polymarketbot` repository:
the risk gate (`src/risk/risk_manager.py`), the paper execution account
(`src/polymarket/paper_trading.py`), the position ledger
(`src/utils/position_tracker.py`), the order executor
(`src/polymarket/order_executor.py`) and the copy-trading pipeline
(`src/modes/copy_trading.py`).

Modeling conventions:
* Python `float` values are modeled as exact rationals (`ℚ`); the arithmetic
  identities in the design document are stated over exact arithmetic.
* Python `dict`s keyed by market id are modeled as insertion-ordered
  association lists with unique keys (matching CPython dict semantics).
* Local calendar dates are modeled as `Nat` day ordinals; wall-clock ISO
  timestamps are opaque `String`s supplied by the caller.
* File persistence (`_save_data`) is modeled as a boolean "a durable write
  happened" flag returned alongside the state transition.
* Log emission (logger, terminal UI, dashboard) goes to external
  collaborators and is not part of the modeled state.
-/

namespace PolyBot

/-- Python `str.lower()` (ASCII case mapping), computed on the character
list so that concrete instances reduce definitionally. -/
def pyLower (s : String) : String := ⟨s.data.map Char.toLower⟩

/-- Python `str.strip()`: drop whitespace from both ends of the string. -/
def pyStrip (s : String) : String :=
  ⟨((s.data.dropWhile Char.isWhitespace).reverse.dropWhile Char.isWhitespace).reverse⟩

/-- First-match lookup in an association list, modeling Python `dict.get`. -/
def lookupA {α : Type} (k : String) : List (String × α) → Option α
  | [] => none
  | (k', v) :: rest => if k' = k then some v else lookupA k rest

/-- Replace the value stored at an existing key, preserving entry order,
modeling in-place mutation of a Python dict entry. -/
def updateA {α : Type} (k : String) (v : α) : List (String × α) → List (String × α)
  | [] => []
  | (k', v') :: rest => if k' = k then (k', v) :: rest else (k', v') :: updateA k v rest

/-- Remove the entry at a key, modeling Python `del d[k]`. -/
def eraseA {α : Type} (k : String) : List (String × α) → List (String × α)
  | [] => []
  | (k', v') :: rest => if k' = k then rest else (k', v') :: eraseA k rest

/-! ## Risk gate — `src/risk/risk_manager.py` -/

namespace RiskManager

/-- A recorded daily trade as seen by `RiskManager.record_trade`: the only
field the risk manager ever reads back out of the stored `trade_data` dict is
the optional `pnl` entry. -/
structure RMTrade where
  pnl : Option ℚ
deriving DecidableEq, Repr

/-- The mutable state of `RiskManager` (configuration plus daily counters).
`last_reset_date` is a day ordinal. -/
structure RiskState where
  max_bet_size : ℚ
  min_balance_threshold : ℚ
  daily_loss_limit : ℚ
  max_daily_trades : Nat
  daily_trades : List RMTrade
  daily_pnl : ℚ
  last_reset_date : Nat
  emergency_stop : Bool
deriving DecidableEq, Repr

/-- `RiskManager._reset_daily_stats`: clear the daily counters when the
current calendar date has advanced past the stored reset date. -/
def resetDailyStats (today : Nat) (s : RiskState) : RiskState :=
  if today > s.last_reset_date then
    { s with daily_trades := [], daily_pnl := 0, last_reset_date := today }
  else s

/-- The distinguishable rejection reasons produced by `check_pre_trade`
(each corresponds to one of the distinct reason strings in the source). -/
inductive RiskReason where
  | emergencyStop
  | maxBetExceeded
  | insufficientBalance
  | belowMinThreshold
  | dailyTradeLimit
  | dailyLossLimit
  | allChecksPassed
deriving DecidableEq, Repr

/-- The `{'allowed': ..., 'reason': ...}` dict returned by `check_pre_trade`. -/
structure RiskCheck where
  allowed : Bool
  reason : RiskReason
deriving DecidableEq, Repr

/-- `RiskManager.check_pre_trade(size, price, balance)`. It first applies the
lazy daily reset (a state mutation), then evaluates the six checks in source
order. Returns the check result together with the (possibly reset) state. -/
def check_pre_trade (today : Nat) (s : RiskState) (size price balance : ℚ) :
    RiskCheck × RiskState :=
  let s := resetDailyStats today s
  let trade_cost := size * price
  if s.emergency_stop then
    (⟨false, .emergencyStop⟩, s)
  else if trade_cost > s.max_bet_size then
    (⟨false, .maxBetExceeded⟩, s)
  else if balance < trade_cost then
    (⟨false, .insufficientBalance⟩, s)
  else if balance - trade_cost < s.min_balance_threshold then
    (⟨false, .belowMinThreshold⟩, s)
  else if s.max_daily_trades > 0 ∧ s.daily_trades.length ≥ s.max_daily_trades then
    (⟨false, .dailyTradeLimit⟩, s)
  else if s.daily_loss_limit > 0 ∧ s.daily_pnl < -s.daily_loss_limit then
    (⟨false, .dailyLossLimit⟩, s)
  else
    (⟨true, .allChecksPassed⟩, s)

/-- `RiskManager.record_trade(trade_data)`: lazy daily reset, append the
trade to the daily log, and accumulate `pnl` when the key is present. -/
def record_trade (today : Nat) (s : RiskState) (trade : RMTrade) : RiskState :=
  let s := resetDailyStats today s
  let s := { s with daily_trades := s.daily_trades ++ [trade] }
  match trade.pnl with
  | some p => { s with daily_pnl := s.daily_pnl + p }
  | none => s

end RiskManager

/-! ## Paper execution account — `src/polymarket/paper_trading.py` -/

namespace PaperTrading

/-- An open position held by the paper account (`self.positions[market_id]`). -/
structure PaperPosition where
  market_id : String
  market_name : String
  side : String
  size : ℚ
  avg_price : ℚ
  entry_time : String
deriving DecidableEq, Repr

/-- A record appended to the paper account's trade history. -/
structure PaperTrade where
  timestamp : String
  market_id : String
  market_name : String
  side : String
  size : ℚ
  price : ℚ
  cost : ℚ
  balance_after : ℚ
deriving DecidableEq, Repr

/-- The mutable state of `PaperTradingAccount`. -/
structure PaperAccount where
  initial_balance : ℚ
  balance : ℚ
  positions : List (String × PaperPosition)
  trades : List PaperTrade
  total_pnl : ℚ
deriving DecidableEq, Repr

/-- The result dict of `PaperTradingAccount.place_order`: three early-return
failure shapes, or the success dict carrying the appended trade record, the
post-trade balance and the cumulative PnL. -/
inductive PaperOrderResult where
  | insufficientBalance (balance required : ℚ)
  | noPositionToSell
  | insufficientPositionSize (held want : ℚ)
  | success (trade : PaperTrade) (balance pnl : ℚ)
deriving DecidableEq, Repr

/-- Shared tail of `place_order`: build the trade record, append it to the
history, persist (`_save_data`), and return the success dict. The returned
`Bool` is the durable-write flag. -/
def finishOrder (acct : PaperAccount) (market_id market_name side : String)
    (size price cost : ℚ) (now : String) :
    PaperOrderResult × PaperAccount × Bool :=
  let trade : PaperTrade :=
    { timestamp := now, market_id := market_id, market_name := market_name,
      side := side, size := size, price := price, cost := cost,
      balance_after := acct.balance }
  let acct := { acct with trades := acct.trades ++ [trade] }
  (.success trade acct.balance acct.total_pnl, acct, true)

/-- `PaperTradingAccount.place_order(market_id, side, size, price,
market_name)`. `now` stands for `datetime.now().isoformat()`. Returns the
result dict, the updated account, and whether `_save_data` ran. -/
def place_order (acct : PaperAccount) (market_id side : String)
    (size price : ℚ) (market_name now : String) :
    PaperOrderResult × PaperAccount × Bool :=
  let cost := size * price
  if pyLower side = "buy" then
    if cost > acct.balance then
      (.insufficientBalance acct.balance cost, acct, false)
    else
      let acct := { acct with balance := acct.balance - cost }
      let acct :=
        match lookupA market_id acct.positions with
        | some pos =>
            let total_shares := pos.size + size
            let avg_price := ((pos.size * pos.avg_price) + (size * price)) / total_shares
            let pos := { pos with size := total_shares, avg_price := avg_price }
            { acct with positions := updateA market_id pos acct.positions }
        | none =>
            let newPos : PaperPosition :=
              { market_id := market_id, market_name := market_name,
                side := "long", size := size, avg_price := price,
                entry_time := now }
            { acct with positions := acct.positions ++ [(market_id, newPos)] }
      finishOrder acct market_id market_name side size price cost now
  else if pyLower side = "sell" then
    match lookupA market_id acct.positions with
    | none => (.noPositionToSell, acct, false)
    | some pos =>
        if pos.size < size then
          (.insufficientPositionSize pos.size size, acct, false)
        else
          let pnl := size * (price - pos.avg_price)
          let acct := { acct with total_pnl := acct.total_pnl + pnl }
          let acct := { acct with balance := acct.balance + cost }
          let newSize := pos.size - size
          let acct :=
            if newSize ≤ 0 then
              { acct with positions := eraseA market_id acct.positions }
            else
              let pos := { pos with size := newSize }
              { acct with positions := updateA market_id pos acct.positions }
          finishOrder acct market_id market_name side size price cost now
  else
    finishOrder acct market_id market_name side size price cost now

end PaperTrading

/-! ## Position ledger — `src/utils/position_tracker.py` -/

namespace PositionTracker

/-- The `PositionSnapshot` dataclass (an open replicated position). -/
structure PositionSnapshot where
  market_id : String
  market_name : String
  size : ℚ
  avg_price : ℚ
  entry_time : String
  last_update : String
deriving DecidableEq, Repr

/-- The `ClosedPosition` dataclass (an immutable close record). -/
structure ClosedPosition where
  market_id : String
  market_name : String
  size : ℚ
  avg_entry_price : ℚ
  exit_price : ℚ
  realized_pnl : ℚ
  entry_time : String
  exit_time : String
deriving DecidableEq, Repr

/-- The mutable state of `PositionTracker`. -/
structure TrackerState where
  max_closed : Nat
  positions : List (String × PositionSnapshot)
  closed_positions : List ClosedPosition
  realized_pnl_total : ℚ
deriving DecidableEq, Repr

/-- The `status` field of the dict returned by
`PositionTracker.record_trade`. -/
inductive TrackerStatus where
  | opened
  | increased
  | reduced
  | closed
  | unmatched_sell
  | ignored
deriving DecidableEq, Repr

/-- The payload returned by `record_trade` alongside the status: either the
surviving open position or the close record, when one is reported. -/
inductive TrackerPayload where
  | openPos (pos : PositionSnapshot)
  | closedPos (pos : ClosedPosition)
  | noPayload
deriving DecidableEq, Repr

/-- The dict returned by `PositionTracker.record_trade`. -/
structure TrackerResult where
  status : TrackerStatus
  realized_pnl : ℚ
  payload : TrackerPayload
deriving DecidableEq, Repr

/-- The Python slice `lst[-n:]` applied to the closed-position list: with
`n = 0` this is `lst[0:]`, the whole list, and otherwise the last `n`
elements. -/
def takeLastPy {α : Type} (n : Nat) (l : List α) : List α :=
  if n = 0 then l else l.drop (l.length - n)

/-- `PositionTracker.record_trade(market_id, market_name, side, size, price,
timestamp)`. `ts` stands for the supplied timestamp (or
`datetime.now().isoformat()`). Returns the result dict, the updated tracker
state, and whether `_save_data` ran. -/
def record_trade (t : TrackerState) (market_id market_name side : String)
    (size price : ℚ) (ts : String) :
    TrackerResult × TrackerState × Bool :=
  let side_lower := pyLower side
  let market_name := if market_name = "" then market_id else market_name
  if side_lower = "buy" then
    match lookupA market_id t.positions with
    | some position =>
        let total_size := position.size + size
        let avg_price := ((position.size * position.avg_price) + (size * price)) / total_size
        let position := { position with size := total_size, avg_price := avg_price,
                                        last_update := ts }
        let t := { t with positions := updateA market_id position t.positions }
        (⟨.increased, 0, .openPos position⟩, t, true)
    | none =>
        let position : PositionSnapshot :=
          { market_id := market_id, market_name := market_name, size := size,
            avg_price := price, entry_time := ts, last_update := ts }
        let t := { t with positions := t.positions ++ [(market_id, position)] }
        (⟨.opened, 0, .openPos position⟩, t, true)
  else if side_lower = "sell" then
    match lookupA market_id t.positions with
    | none => (⟨.unmatched_sell, 0, .noPayload⟩, t, false)
    | some position =>
        let sell_size := min size position.size
        let realized_pnl := sell_size * (price - position.avg_price)
        let t := { t with realized_pnl_total := t.realized_pnl_total + realized_pnl }
        if sell_size ≥ position.size then
          let closed : ClosedPosition :=
            { market_id := market_id, market_name := position.market_name,
              size := position.size, avg_entry_price := position.avg_price,
              exit_price := price, realized_pnl := realized_pnl,
              entry_time := position.entry_time, exit_time := ts }
          let t := { t with closed_positions :=
                       takeLastPy t.max_closed (t.closed_positions ++ [closed]) }
          let t := { t with positions := eraseA market_id t.positions }
          (⟨.closed, realized_pnl, .closedPos closed⟩, t, true)
        else
          let position := { position with size := position.size - sell_size,
                                          last_update := ts }
          let t := { t with positions := updateA market_id position t.positions }
          (⟨.reduced, realized_pnl, .openPos position⟩, t, true)
  else
    (⟨.ignored, 0, .noPayload⟩, t, false)

end PositionTracker

/-! ## Event queue and activity poller — `src/modes/copy_trading.py` -/

namespace CopyTrading

/-- `asyncio.Queue.full()`: true when the queue is bounded (`maxsize > 0`)
and occupancy has reached capacity. -/
def queueFull {α : Type} (cap : Nat) (q : List α) : Bool :=
  decide (0 < cap ∧ cap ≤ q.length)

/-- One iteration of the enqueue loop in `CopyTradingMode._poll_loop`: if the
queue is full, drop the oldest queued item (`get_nowait`), then enqueue the
new item. The head of the list is the oldest (front of the FIFO). -/
def enqueueDropOldest {α : Type} (cap : Nat) (q : List α) (x : α) : List α :=
  if queueFull cap q then q.drop 1 ++ [x] else q ++ [x]

/-- A trade-activity item returned by the Data API: only the timestamp is
read by the cursor-advancement loop. -/
structure PollItem where
  timestamp : Int
deriving DecidableEq, Repr

/-- One step of the cursor-advancement loop in `_poll_loop`:
`if self._last_ts is None or ts > self._last_ts: self._last_ts = ts`. -/
def updateCursor (cursor : Option Int) (ts : Int) : Option Int :=
  match cursor with
  | none => some ts
  | some v => if ts > v then some ts else some v

/-- Cursor advancement over a whole returned page, in page order. -/
def updateCursorPage (cursor : Option Int) (items : List PollItem) : Option Int :=
  items.foldl (fun c it => updateCursor c it.timestamp) cursor

/-- Processing of one non-empty poll page in `_poll_loop`: first advance the
cursor for every returned item, then enqueue every item under the
drop-oldest backpressure policy. -/
def processPage (cap : Nat) (cursor : Option Int) (q : List PollItem)
    (items : List PollItem) : Option Int × List PollItem :=
  let cursor := updateCursorPage cursor items
  (cursor, items.foldl (enqueueDropOldest cap) q)

end CopyTrading

/-! ## Order executor — `src/polymarket/order_executor.py` -/

namespace OrderExecutor

/-- The validation errors appended by `OrderExecutor.validate_order`, one
constructor per distinct message string in the source (`Invalid token_id`,
`Invalid side (must be buy or sell)`, `Size must be greater than 0`,
`Price must be between 0 and 1`). -/
inductive ValidationError where
  | invalidTokenId
  | invalidSide
  | invalidSize
  | invalidPrice
deriving DecidableEq, Repr

/-- `OrderExecutor.validate_order(token_id, side, size, price)`: the list of
errors accumulated in source order (`valid` is this list being empty).
`price = none` models the market-order path that passes no price. -/
def validate_order (token_id side : String) (size : ℚ) (price : Option ℚ) :
    List ValidationError :=
  let errors : List ValidationError := []
  let errors := if token_id = "" then errors ++ [.invalidTokenId] else errors
  let errors :=
    if ¬(pyLower side = "buy" ∨ pyLower side = "sell") then
      errors ++ [.invalidSide]
    else errors
  let errors := if size ≤ 0 then errors ++ [.invalidSize] else errors
  match price with
  | some p => if p ≤ 0 ∨ p > 1 then errors ++ [.invalidPrice] else errors
  | none => errors

/-- The result dict of `OrderExecutor.execute_limit_order`, one constructor
per return site in the source. -/
inductive ExecResult where
  | validationFailed (errors : List ValidationError) (paper_trade : Bool)
  | paperFailed (error : PaperTrading.PaperOrderResult)
  | paperSuccess (order_id : String) (price size balance pnl : ℚ)
  | liveNotInitialized
  | liveFailed (error : String)
  | liveSuccess (order_id : String)
deriving DecidableEq, Repr

/-- `True` exactly on the validation-failure return of the executor. -/
def isValidationFailure : ExecResult → Bool
  | .validationFailed _ _ => true
  | _ => false

/-- The observable outcome of `execute_limit_order`: the result dict, the
paper account afterwards, whether an order was routed to the paper account
(`place_order` invoked), whether an order was submitted to the live venue
client, and whether a durable paper-ledger write happened. -/
structure ExecOutcome where
  result : ExecResult
  account : PaperTrading.PaperAccount
  routedPaper : Bool
  routedLive : Bool
  saved : Bool
deriving DecidableEq, Repr

/-- `OrderExecutor.execute_limit_order(token_id, side, size, price,
market_id, market_name)`. `paper_trading` is the strategy flag fixed at
construction; `live` models the live venue collaborator response
(`none` = API client not initialized, `Except.error` = rejected order,
`Except.ok` = accepted order id). -/
def execute_limit_order (paper_trading : Bool)
    (acct : PaperTrading.PaperAccount) (live : Option (Except String String))
    (token_id side : String) (size price : ℚ)
    (market_id market_name now : String) : ExecOutcome :=
  let errors := validate_order token_id side size (some price)
  if errors ≠ [] then
    ⟨.validationFailed errors paper_trading, acct, false, false, false⟩
  else if paper_trading then
    let mid := if market_id = "" then token_id else market_id
    let out := PaperTrading.place_order acct mid side size price market_name now
    match out with
    | (.success trade balance pnl, acct, saved) =>
        ⟨.paperSuccess ("paper_" ++ trade.timestamp) price size balance pnl,
          acct, true, false, saved⟩
    | (failRes, acct, saved) => ⟨.paperFailed failRes, acct, true, false, saved⟩
  else
    match live with
    | none => ⟨.liveNotInitialized, acct, false, false, false⟩
    | some (.error e) => ⟨.liveFailed e, acct, false, true, false⟩
    | some (.ok order_id) => ⟨.liveSuccess order_id, acct, false, true, false⟩

end OrderExecutor

/-! ## Copy-trading consumer — `src/modes/copy_trading.py` -/

namespace CopyTrading

/-- The `trade_data` dict handed to `CopyTradingMode._handle_user_trade`
(as normalized by `_consume_loop`). Fields hold their Python defaults when
the corresponding key is absent (`wallet`/`market`/`token_id` default `""`,
`side` defaults `"buy"`, `size` `0`, `price` `0.5`), except the two
transaction-hash fields, where Python truthiness matters and `some ""` is
as falsy as `none`. The feed timestamp is kept as its string rendering. -/
structure TradeData where
  tx_hash : Option String
  transactionHash : Option String
  wallet : String
  market : String
  token_id : String
  side : String
  size : ℚ
  price : ℚ
  timestamp : String
  market_name : String
deriving DecidableEq, Repr

/-- Python truthiness of an optional string: `none` and the empty string
are falsy. -/
def truthyStr : Option String → Option String
  | some s => if s = "" then none else some s
  | none => none

/-- `CopyTradingMode._generate_trade_id(trade_data)`: prefer a truthy
`tx_hash`, then a truthy `transactionHash`, else the composite
`f"{wallet}_{market}_{timestamp}_{side}"`. -/
def generate_trade_id (d : TradeData) : String :=
  match truthyStr d.tx_hash with
  | some tx => tx
  | none =>
    match truthyStr d.transactionHash with
    | some tx => tx
    | none => d.wallet ++ "_" ++ d.market ++ "_" ++ d.timestamp ++ "_" ++ d.side

/-- `CopyTradingMode._shrink_dedupe_set`: once the dedup cache exceeds 3000
keys, keep only the most recent 1500. The Python source stores the cache in
a `set` whose iteration order is unspecified; this model uses the
insertion-ordered list of keys, which makes "most recent" well-defined. -/
def shrinkDedupe (processed : List String) : List String :=
  if processed.length > 3000 then processed.drop (processed.length - 1500)
  else processed

/-- The mutable pipeline state touched by `_handle_user_trade`:
configuration fixed at construction (target wallet, scaling, strategy flag),
the dedup cache, and the three stateful collaborators (risk manager, paper
account, position tracker). Log/UI emission goes to external collaborators
and carries no modeled state. -/
structure CopySystem where
  target_wallet : String
  position_scale : ℚ
  position_size_pct : ℚ
  paper_trading : Bool
  processed_trades : List String
  risk : RiskManager.RiskState
  account : PaperTrading.PaperAccount
  tracker : PositionTracker.TrackerState
deriving DecidableEq, Repr

/-- `CopyTradingMode._handle_user_trade(trade_data)`. `today` feeds the risk
manager's lazy daily reset, `now` stands for `datetime.now().isoformat()`,
`liveBalance`/`live` are the live-venue collaborator responses (unused in
paper mode). Returns the updated pipeline state and the number of durable
ledger writes performed by this call (paper-account write plus
position-tracker write). -/
def handle_user_trade (sys : CopySystem) (d : TradeData) (today : Nat)
    (now : String) (liveBalance : ℚ) (live : Option (Except String String)) :
    CopySystem × Nat :=
  let trade_id := generate_trade_id d
  if trade_id ∈ sys.processed_trades then (sys, 0)
  else
    let sys := { sys with processed_trades :=
                   shrinkDedupe (sys.processed_trades ++ [trade_id]) }
    let wallet := pyStrip d.wallet
    if pyLower wallet ≠ pyLower sys.target_wallet then (sys, 0)
    else
      let market_id := d.market
      let token_id := d.token_id
      let side := pyLower d.side
      let size := d.size
      let price := d.price
      let market_name := if d.market_name = "" then market_id else d.market_name
      let scaled := size * sys.position_scale
      let balance := if sys.paper_trading then sys.account.balance else liveBalance
      let scaled_size :=
        if sys.position_size_pct > 0 ∧ side = "buy" then
          if price > 0 then (balance * sys.position_size_pct) / price else 0
        else scaled
      let rc := RiskManager.check_pre_trade today sys.risk scaled_size price balance
      let sys := { sys with risk := rc.2 }
      if ¬rc.1.allowed then (sys, 0)
      else
        let out := OrderExecutor.execute_limit_order sys.paper_trading sys.account
                     live token_id side scaled_size price market_id market_name now
        let sys := { sys with account := out.account }
        let writes := if out.saved then 1 else 0
        match out.result with
        | .paperSuccess _ p _ _ pnl =>
            let sys := { sys with risk := RiskManager.record_trade today sys.risk ⟨some pnl⟩ }
            let tr := PositionTracker.record_trade sys.tracker market_id market_name
                        side scaled_size p now
            let sys := { sys with tracker := tr.2.1 }
            (sys, writes + if tr.2.2 then 1 else 0)
        | .liveSuccess _ =>
            let sys := { sys with risk := RiskManager.record_trade today sys.risk ⟨none⟩ }
            let tr := PositionTracker.record_trade sys.tracker market_id market_name
                        side scaled_size price now
            let sys := { sys with tracker := tr.2.1 }
            (sys, writes + if tr.2.2 then 1 else 0)
        | _ => (sys, writes)

end CopyTrading

end PolyBot

/-! ## Helper lemmas -/

open PolyBot

/-- Appending a fresh key to an association list makes it visible to lookup. -/
theorem lookupA_append_self {α : Type} (k : String) (v : α) (l : List (String × α))
    (h : lookupA k l = none) : lookupA k (l ++ [(k, v)]) = some v := by
  induction l with
  | nil => simp [lookupA]
  | cons hd tl ih =>
      rw [lookupA] at h
      rcases hd with ⟨k', v'⟩
      by_cases hk : k' = k
      · simp [hk] at h
      · simpa [lookupA, hk] using ih (by simpa [hk] using h)

/-- Erasing a key that only occurs as the freshly appended last entry
restores the original list. -/
theorem eraseA_append_self {α : Type} (k : String) (v : α) (l : List (String × α))
    (h : lookupA k l = none) : eraseA k (l ++ [(k, v)]) = l := by
  induction l with
  | nil => simp [eraseA]
  | cons hd tl ih =>
      rw [lookupA] at h
      rcases hd with ⟨k', v'⟩
      by_cases hk : k' = k
      · simp [hk] at h
      · simpa [eraseA, hk] using ih (by simpa [hk] using h)

/-- A key outside the key set is invisible to lookup. -/
theorem lookupA_eq_none_of_not_mem {α : Type} (k : String) (l : List (String × α))
    (h : k ∉ l.map Prod.fst) : lookupA k l = none := by
  induction l with
  | nil => rfl
  | cons hd tl ih =>
      rcases hd with ⟨k', v'⟩
      simp only [List.map_cons, List.mem_cons] at h
      push_neg at h
      rw [lookupA, if_neg (fun he => h.1 he.symm)]
      exact ih h.2

/-- With duplicate-free keys (the dict invariant), erasing a key removes it
from the view of lookup. -/
theorem lookupA_eraseA_of_nodup {α : Type} (k : String) (l : List (String × α))
    (h : (l.map Prod.fst).Nodup) : lookupA k (eraseA k l) = none := by
  induction l with
  | nil => rfl
  | cons hd tl ih =>
      rcases hd with ⟨k', v'⟩
      simp only [List.map_cons, List.nodup_cons] at h
      by_cases hk : k' = k
      · subst hk
        rw [eraseA, if_pos rfl]
        exact lookupA_eq_none_of_not_mem k' tl h.1
      · rw [eraseA, if_neg hk, lookupA, if_neg hk]
        exact ih h.2

/-- Updating an existing key stores the new value at that key. -/
theorem lookupA_updateA_self {α : Type} (k : String) (w : α) (l : List (String × α))
    (v : α) (h : lookupA k l = some v) : lookupA k (updateA k w l) = some w := by
  induction l with
  | nil => simp [lookupA] at h
  | cons hd tl ih =>
      rcases hd with ⟨k', v'⟩
      by_cases hk : k' = k
      · simp [updateA, lookupA, hk]
      · rw [lookupA, if_neg hk] at h
        simpa [updateA, lookupA, hk] using ih h

/-- The daily reset never touches the emergency-stop flag. -/
theorem resetDailyStats_emergency (today : Nat) (s : RiskManager.RiskState) :
    (RiskManager.resetDailyStats today s).emergency_stop = s.emergency_stop := by
  unfold RiskManager.resetDailyStats; split <;> rfl

/-- The daily reset never touches the configured limits. -/
theorem resetDailyStats_config (today : Nat) (s : RiskManager.RiskState) :
    (RiskManager.resetDailyStats today s).max_bet_size = s.max_bet_size ∧
    (RiskManager.resetDailyStats today s).min_balance_threshold = s.min_balance_threshold ∧
    (RiskManager.resetDailyStats today s).daily_loss_limit = s.daily_loss_limit ∧
    (RiskManager.resetDailyStats today s).max_daily_trades = s.max_daily_trades := by
  unfold RiskManager.resetDailyStats; split <;> exact ⟨rfl, rfl, rfl, rfl⟩

/-- One cursor step computes the maximum of cursor and timestamp. -/
theorem updateCursor_some (v ts : Int) :
    CopyTrading.updateCursor (some v) ts = some (max v ts) := by
  by_cases h : ts > v
  · simp [CopyTrading.updateCursor, h, max_eq_right (le_of_lt h)]
  · simp [CopyTrading.updateCursor, h, max_eq_left (not_lt.mp h)]

/-- A left fold of `max` never goes below its seed. -/
theorem le_foldl_max (l : List CopyTrading.PollItem) (v : Int) :
    v ≤ l.foldl (fun m it => max m it.timestamp) v := by
  induction l generalizing v with
  | nil => exact le_refl v
  | cons hd tl ih => exact le_trans (le_max_left v hd.timestamp) (ih (max v hd.timestamp))

/-! ## Claim theorems -/

/-- C1: whenever the emergency-stop flag is set, `check_pre_trade` rejects
with the emergency-stop reason and no other, regardless of the remaining
limits; the six checks are evaluated in the fixed priority order
emergency-stop, max-bet-size, insufficient-balance, balance-floor,
daily-trade-cap, daily-loss-limit, and the seven possible reasons are
pairwise distinguishable. -/
theorem C1_risk_priority (today : Nat) (s : RiskManager.RiskState)
    (size price balance : ℚ) :
    (s.emergency_stop = true →
       (RiskManager.check_pre_trade today s size price balance).1 =
         ⟨false, RiskManager.RiskReason.emergencyStop⟩) ∧
    (s.emergency_stop = false → size * price > s.max_bet_size →
       (RiskManager.check_pre_trade today s size price balance).1 =
         ⟨false, RiskManager.RiskReason.maxBetExceeded⟩) ∧
    (s.emergency_stop = false → ¬(size * price > s.max_bet_size) →
     balance < size * price →
       (RiskManager.check_pre_trade today s size price balance).1 =
         ⟨false, RiskManager.RiskReason.insufficientBalance⟩) ∧
    (s.emergency_stop = false → ¬(size * price > s.max_bet_size) →
     ¬(balance < size * price) →
     balance - size * price < s.min_balance_threshold →
       (RiskManager.check_pre_trade today s size price balance).1 =
         ⟨false, RiskManager.RiskReason.belowMinThreshold⟩) ∧
    (s.emergency_stop = false → ¬(size * price > s.max_bet_size) →
     ¬(balance < size * price) →
     ¬(balance - size * price < s.min_balance_threshold) →
     (s.max_daily_trades > 0 ∧
       (RiskManager.resetDailyStats today s).daily_trades.length ≥ s.max_daily_trades) →
       (RiskManager.check_pre_trade today s size price balance).1 =
         ⟨false, RiskManager.RiskReason.dailyTradeLimit⟩) ∧
    (s.emergency_stop = false → ¬(size * price > s.max_bet_size) →
     ¬(balance < size * price) →
     ¬(balance - size * price < s.min_balance_threshold) →
     ¬(s.max_daily_trades > 0 ∧
       (RiskManager.resetDailyStats today s).daily_trades.length ≥ s.max_daily_trades) →
     (s.daily_loss_limit > 0 ∧
       (RiskManager.resetDailyStats today s).daily_pnl < -s.daily_loss_limit) →
       (RiskManager.check_pre_trade today s size price balance).1 =
         ⟨false, RiskManager.RiskReason.dailyLossLimit⟩) ∧
    (s.emergency_stop = false → ¬(size * price > s.max_bet_size) →
     ¬(balance < size * price) →
     ¬(balance - size * price < s.min_balance_threshold) →
     ¬(s.max_daily_trades > 0 ∧
       (RiskManager.resetDailyStats today s).daily_trades.length ≥ s.max_daily_trades) →
     ¬(s.daily_loss_limit > 0 ∧
       (RiskManager.resetDailyStats today s).daily_pnl < -s.daily_loss_limit) →
       (RiskManager.check_pre_trade today s size price balance).1 =
         ⟨true, RiskManager.RiskReason.allChecksPassed⟩) ∧
    List.Pairwise (· ≠ ·)
      [RiskManager.RiskReason.emergencyStop, RiskManager.RiskReason.maxBetExceeded,
       RiskManager.RiskReason.insufficientBalance, RiskManager.RiskReason.belowMinThreshold,
       RiskManager.RiskReason.dailyTradeLimit, RiskManager.RiskReason.dailyLossLimit,
       RiskManager.RiskReason.allChecksPassed] := by
  obtain ⟨hmb, hmt, hdl, hmd⟩ := resetDailyStats_config today s
  have hem := resetDailyStats_emergency today s
  refine ⟨?_, ?_, ?_, ?_, ?_, ?_, ?_, by decide⟩
  · intro h1
    simp [RiskManager.check_pre_trade, hem, h1]
  · intro h1 h2
    simp [RiskManager.check_pre_trade, hem, h1, hmb, h2]
  · intro h1 h2 h3
    simp [RiskManager.check_pre_trade, hem, h1, hmb, h2, h3]
  · intro h1 h2 h3 h4
    simp [RiskManager.check_pre_trade, hem, h1, hmb, h2, h3, hmt, h4]
  · intro h1 h2 h3 h4 h5
    simp [RiskManager.check_pre_trade, hem, h1, hmb, h2, h3, hmt, h4, hmd, h5]
  · intro h1 h2 h3 h4 h5 h6
    simp [RiskManager.check_pre_trade, hem, h1, hmb, h2, h3, hmt, h4, hmd, h5, hdl, h6]
  · intro h1 h2 h3 h4 h5 h6
    simp [RiskManager.check_pre_trade, hem, h1, hmb, h2, h3, hmt, h4, hmd, h5, hdl, h6]

/-- Witness for C1: a state with the emergency stop set and every other
limit simultaneously violated still rejects with the emergency-stop
reason. -/
theorem C1_risk_priority_witness :
    (RiskManager.check_pre_trade 0
       ⟨1, 1000, 5, 1, [⟨some (-10)⟩], -10, 0, true⟩ 100 1 0).1 =
      ⟨false, RiskManager.RiskReason.emergencyStop⟩ :=
  (C1_risk_priority 0 ⟨1, 1000, 5, 1, [⟨some (-10)⟩], -10, 0, true⟩ 100 1 0).1 rfl

/-- C2: starting from any paper account with no open position in a market,
buying size `S` at price `P` (affordable) and then selling the full size at
price `P2` both succeed, leave the balance at `B + S*(P2 - P)`, accumulate
realized PnL `S*(P2 - P)` onto the running total, and remove the
position. -/
theorem C2_paper_conservation (acct : PaperTrading.PaperAccount)
    (market_id market_name mn2 now now2 : String) (S P P2 : ℚ)
    {r1 r2 : PaperTrading.PaperOrderResult}
    {acct1 acct2 : PaperTrading.PaperAccount} {s1 s2 : Bool}
    (hno : lookupA market_id acct.positions = none)
    (hafford : S * P ≤ acct.balance)
    (h1 : PaperTrading.place_order acct market_id "buy" S P market_name now =
            (r1, acct1, s1))
    (h2 : PaperTrading.place_order acct1 market_id "sell" S P2 mn2 now2 =
            (r2, acct2, s2)) :
    acct2.balance = acct.balance + S * (P2 - P) ∧
    acct2.total_pnl = acct.total_pnl + S * (P2 - P) ∧
    lookupA market_id acct2.positions = none ∧
    (∃ tr, r1 = PaperTrading.PaperOrderResult.success tr acct1.balance acct1.total_pnl) ∧
    (∃ tr, r2 = PaperTrading.PaperOrderResult.success tr acct2.balance acct2.total_pnl) := by
  have hbuy : pyLower "buy" = "buy" := by decide
  have hsell : pyLower "sell" = "sell" := by decide
  have hnb : ¬(("sell" : String) = "buy") := by decide
  have hngt : ¬(S * P > acct.balance) := not_lt.mpr hafford
  have e1 : PaperTrading.place_order acct market_id "buy" S P market_name now =
      (PaperTrading.PaperOrderResult.success
         ⟨now, market_id, market_name, "buy", S, P, S * P, acct.balance - S * P⟩
         (acct.balance - S * P) acct.total_pnl,
       { acct with balance := acct.balance - S * P,
                   positions := acct.positions ++
                     [(market_id, ⟨market_id, market_name, "long", S, P, now⟩)],
                   trades := acct.trades ++
                     [⟨now, market_id, market_name, "buy", S, P, S * P,
                       acct.balance - S * P⟩] },
       true) := by
    simp [PaperTrading.place_order, PaperTrading.finishOrder, hbuy, hno, hngt]
  rw [e1] at h1
  simp only [Prod.mk.injEq] at h1
  obtain ⟨hr1, hacct1, hs1⟩ := h1
  subst hacct1
  have hl1 : lookupA market_id (acct.positions ++
      [(market_id, (⟨market_id, market_name, "long", S, P, now⟩ :
        PaperTrading.PaperPosition))]) =
      some ⟨market_id, market_name, "long", S, P, now⟩ :=
    lookupA_append_self _ _ _ hno
  have he1 : eraseA market_id (acct.positions ++
      [(market_id, (⟨market_id, market_name, "long", S, P, now⟩ :
        PaperTrading.PaperPosition))]) = acct.positions :=
    eraseA_append_self _ _ _ hno
  have hns : ¬(S < S) := lt_irrefl S
  have hz : S - S ≤ (0 : ℚ) := by simp
  have e2 : PaperTrading.place_order
      { acct with balance := acct.balance - S * P,
                  positions := acct.positions ++
                    [(market_id, ⟨market_id, market_name, "long", S, P, now⟩)],
                  trades := acct.trades ++
                    [⟨now, market_id, market_name, "buy", S, P, S * P,
                      acct.balance - S * P⟩] }
      market_id "sell" S P2 mn2 now2 =
      (PaperTrading.PaperOrderResult.success
         ⟨now2, market_id, mn2, "sell", S, P2, S * P2, acct.balance - S * P + S * P2⟩
         (acct.balance - S * P + S * P2) (acct.total_pnl + S * (P2 - P)),
       { acct with balance := acct.balance - S * P + S * P2,
                   positions := acct.positions,
                   trades := (acct.trades ++
                     [⟨now, market_id, market_name, "buy", S, P, S * P,
                       acct.balance - S * P⟩]) ++
                     [⟨now2, market_id, mn2, "sell", S, P2, S * P2,
                       acct.balance - S * P + S * P2⟩],
                   total_pnl := acct.total_pnl + S * (P2 - P) },
       true) := by
    simp [PaperTrading.place_order, PaperTrading.finishOrder, hsell, hnb, hl1,
          hns, hz, he1]
  rw [e2] at h2
  simp only [Prod.mk.injEq] at h2
  obtain ⟨hr2, hacct2, hs2⟩ := h2
  subst hacct2
  refine ⟨by ring, rfl, hno, ⟨_, hr1.symm⟩, ⟨_, hr2.symm⟩⟩

/-- Witness for C2: a fresh 1000-unit account buys 10 shares at 0.5 and
sells them at 0.75, ending at balance 1002.5 with realized PnL 2.5 and no
open position. -/
theorem C2_paper_conservation_witness :
    (PaperTrading.place_order
       (PaperTrading.place_order ⟨1000, 1000, [], [], 0⟩ "m" "buy" 10 (1/2) "mn" "t0").2.1
       "m" "sell" 10 (3/4) "mn" "t1").2.1.balance = 1000 + 10 * (3/4 - 1/2) ∧
    (PaperTrading.place_order
       (PaperTrading.place_order ⟨1000, 1000, [], [], 0⟩ "m" "buy" 10 (1/2) "mn" "t0").2.1
       "m" "sell" 10 (3/4) "mn" "t1").2.1.total_pnl = 0 + 10 * (3/4 - 1/2) ∧
    lookupA "m" (PaperTrading.place_order
       (PaperTrading.place_order ⟨1000, 1000, [], [], 0⟩ "m" "buy" 10 (1/2) "mn" "t0").2.1
       "m" "sell" 10 (3/4) "mn" "t1").2.1.positions = none := by
  obtain ⟨hb, hp, hl, -, -⟩ :=
    C2_paper_conservation ⟨1000, 1000, [], [], 0⟩ "m" "mn" "mn" "t0" "t1"
      10 (1/2) (3/4) rfl (by norm_num) rfl rfl
  exact ⟨hb, hp, hl⟩

/-- C3: a sell with no open position in the market is the explicit
`unmatched_sell` outcome: realized PnL 0, the tracker state unchanged in
every field, and no persistence write. -/
theorem C3_unmatched_sell (t : PositionTracker.TrackerState)
    (market_id market_name : String) (size price : ℚ) (ts : String)
    (hno : lookupA market_id t.positions = none) :
    PositionTracker.record_trade t market_id market_name "sell" size price ts =
      (⟨PositionTracker.TrackerStatus.unmatched_sell, 0,
        PositionTracker.TrackerPayload.noPayload⟩, t, false) := by
  have hsell : pyLower "sell" = "sell" := by decide
  have hnb : ¬(("sell" : String) = "buy") := by decide
  simp [PositionTracker.record_trade, hsell, hnb, hno]

/-- Witness for C3: selling into an empty tracker reports `unmatched_sell`
with zero PnL and mutates nothing. -/
theorem C3_unmatched_sell_witness :
    PositionTracker.record_trade ⟨200, [], [], 0⟩ "m" "mn" "sell" 1 (1/2) "t" =
      (⟨PositionTracker.TrackerStatus.unmatched_sell, 0,
        PositionTracker.TrackerPayload.noPayload⟩, ⟨200, [], [], 0⟩, false) :=
  C3_unmatched_sell ⟨200, [], [], 0⟩ "m" "mn" 1 (1/2) "t" rfl

/-- C4 counterexample: with an open position of size 1, a sell requesting
size 2 does not fail closed — the Position Ledger clamps the sell to the
held size, reports status `closed` with realized PnL computed on the held
size, removes the position, and persists state. -/
theorem C4_oversell_counterexample :
    ((PositionTracker.record_trade ⟨200, [("m", ⟨"m", "m", 1, 1/2, "e", "e"⟩)], [], 0⟩
        "m" "m" "sell" 2 (3/4) "t1").1.status = PositionTracker.TrackerStatus.closed) ∧
    ((PositionTracker.record_trade ⟨200, [("m", ⟨"m", "m", 1, 1/2, "e", "e"⟩)], [], 0⟩
        "m" "m" "sell" 2 (3/4) "t1").1.realized_pnl = 1 * (3/4 - 1/2)) ∧
    ((PositionTracker.record_trade ⟨200, [("m", ⟨"m", "m", 1, 1/2, "e", "e"⟩)], [], 0⟩
        "m" "m" "sell" 2 (3/4) "t1").2.1.positions = []) ∧
    ((PositionTracker.record_trade ⟨200, [("m", ⟨"m", "m", 1, 1/2, "e", "e"⟩)], [], 0⟩
        "m" "m" "sell" 2 (3/4) "t1").2.1.realized_pnl_total = 1/4) ∧
    ((PositionTracker.record_trade ⟨200, [("m", ⟨"m", "m", 1, 1/2, "e", "e"⟩)], [], 0⟩
        "m" "m" "sell" 2 (3/4) "t1").2.2 = true) := by
  have hsell : pyLower "sell" = "sell" := by decide
  have hnb : ¬(("sell" : String) = "buy") := by decide
  have hmin : min (2 : ℚ) 1 = 1 := by norm_num
  norm_num [PositionTracker.record_trade, PositionTracker.takeLastPy, lookupA,
            eraseA, hsell, hnb, hmin]

/-- C4 (amended): a sell whose requested size strictly exceeds the held
size is clamped by the Position Ledger, not rejected: it closes the
position with realized PnL computed on the held size (never on the larger
requested size), removes the position, accumulates the PnL and persists —
whereas the paper Execution Account does fail such a sell closed with no
mutation. -/
theorem C4_oversell_clamps (t : PositionTracker.TrackerState)
    (acct : PaperTrading.PaperAccount) (market_id market_name mn2 : String)
    (pos : PositionTracker.PositionSnapshot) (ppos : PaperTrading.PaperPosition)
    (size price : ℚ) (ts now : String)
    (hpos : lookupA market_id t.positions = some pos)
    (hover : pos.size < size)
    (hnd : (t.positions.map Prod.fst).Nodup)
    (hppos : lookupA market_id acct.positions = some ppos)
    (hpover : ppos.size < size) :
    ((PositionTracker.record_trade t market_id market_name "sell" size price ts).1.status
        = PositionTracker.TrackerStatus.closed) ∧
    ((PositionTracker.record_trade t market_id market_name "sell" size price ts).1.realized_pnl
        = pos.size * (price - pos.avg_price)) ∧
    (lookupA market_id
        (PositionTracker.record_trade t market_id market_name "sell" size price ts).2.1.positions
        = none) ∧
    ((PositionTracker.record_trade t market_id market_name "sell" size price ts).2.1.realized_pnl_total
        = t.realized_pnl_total + pos.size * (price - pos.avg_price)) ∧
    ((PositionTracker.record_trade t market_id market_name "sell" size price ts).2.2 = true) ∧
    (PaperTrading.place_order acct market_id "sell" size price mn2 now =
       (PaperTrading.PaperOrderResult.insufficientPositionSize ppos.size size, acct, false)) := by
  have hsell : pyLower "sell" = "sell" := by decide
  have hnb : ¬(("sell" : String) = "buy") := by decide
  have hmin : min size pos.size = pos.size := min_eq_right hover.le
  have hge : min size pos.size ≥ pos.size := by rw [hmin]
  refine ⟨?_, ?_, ?_, ?_, ?_, ?_⟩
  · simp [PositionTracker.record_trade, hsell, hnb, hpos, hmin, hge]
  · simp [PositionTracker.record_trade, hsell, hnb, hpos, hmin, hge]
  · simp only [PositionTracker.record_trade, hsell, hnb, hpos, hmin, hge]
    simp only [if_neg hnb, if_pos rfl, ge_iff_le, le_refl, if_pos]
    exact lookupA_eraseA_of_nodup market_id t.positions hnd
  · simp [PositionTracker.record_trade, hsell, hnb, hpos, hmin, hge]
  · simp [PositionTracker.record_trade, hsell, hnb, hpos, hmin, hge]
  · simp [PaperTrading.place_order, hsell, hnb, hppos, hpover]

/-- Witness for C4 (amended): held size 1, requested sell 2 — the ledger
closes with PnL on the held size while the paper account rejects. -/
theorem C4_oversell_clamps_witness :
    ((PositionTracker.record_trade ⟨200, [("w", ⟨"w", "w", 1, 1/2, "e", "e"⟩)], [], 0⟩
        "w" "w" "sell" 2 (3/4) "t1").1.status = PositionTracker.TrackerStatus.closed) ∧
    (PaperTrading.place_order ⟨100, 100, [("w", ⟨"w", "wn", "long", 1, 1/2, "e"⟩)], [], 0⟩
        "w" "sell" 2 (3/4) "wn2" "t2" =
      (PaperTrading.PaperOrderResult.insufficientPositionSize 1 2,
       ⟨100, 100, [("w", ⟨"w", "wn", "long", 1, 1/2, "e"⟩)], [], 0⟩, false)) := by
  obtain ⟨h1, -, -, -, -, h6⟩ :=
    C4_oversell_clamps ⟨200, [("w", ⟨"w", "w", 1, 1/2, "e", "e"⟩)], [], 0⟩
      ⟨100, 100, [("w", ⟨"w", "wn", "long", 1, 1/2, "e"⟩)], [], 0⟩
      "w" "w" "wn2" ⟨"w", "w", 1, 1/2, "e", "e"⟩ ⟨"w", "wn", "long", 1, 1/2, "e"⟩
      2 (3/4) "t1" "t2" rfl (by norm_num) (by simp) rfl (by norm_num)
  exact ⟨h1, h6⟩

/-- C5: enqueuing into a full bounded queue of capacity `Q` drops exactly
the oldest queued item and appends the new one; the size stays `Q` and the
FIFO order of the survivors is preserved. -/
theorem C5_backpressure {α : Type} (cap : Nat) (q : List α) (x : α)
    (hcap : 0 < cap) (hfull : q.length = cap) :
    CopyTrading.enqueueDropOldest cap q x = q.drop 1 ++ [x] ∧
    (CopyTrading.enqueueDropOldest cap q x).length = cap := by
  have hf : CopyTrading.queueFull cap q = true := by
    simp [CopyTrading.queueFull, hfull, hcap]
  have he : CopyTrading.enqueueDropOldest cap q x = q.drop 1 ++ [x] := by
    simp [CopyTrading.enqueueDropOldest, hf]
  refine ⟨he, ?_⟩
  rw [he]
  simp only [List.length_append, List.length_drop, List.length_singleton, hfull]
  omega

/-- Witness for C5: a full queue of capacity 2 holding timestamps 100 and
105 receives 103 — the oldest (100) is dropped and size stays 2. -/
theorem C5_backpressure_witness :
    CopyTrading.enqueueDropOldest 2
        [CopyTrading.PollItem.mk 100, CopyTrading.PollItem.mk 105]
        (CopyTrading.PollItem.mk 103) =
      [CopyTrading.PollItem.mk 105, CopyTrading.PollItem.mk 103] ∧
    (CopyTrading.enqueueDropOldest 2
        [CopyTrading.PollItem.mk 100, CopyTrading.PollItem.mk 105]
        (CopyTrading.PollItem.mk 103)).length = 2 :=
  C5_backpressure 2 [CopyTrading.PollItem.mk 100, CopyTrading.PollItem.mk 105]
    (CopyTrading.PollItem.mk 103) (by decide) rfl

/-- Page-level cursor advancement from a defined cursor computes the left
fold of `max` over the returned timestamps. -/
theorem updateCursorPage_some (items : List CopyTrading.PollItem) (v : Int) :
    CopyTrading.updateCursorPage (some v) items =
      some (items.foldl (fun m it => max m it.timestamp) v) := by
  induction items generalizing v with
  | nil => rfl
  | cons hd tl ih =>
      show CopyTrading.updateCursorPage
        (CopyTrading.updateCursor (some v) hd.timestamp) tl = _
      rw [updateCursor_some, ih, List.foldl_cons]

/-- C6: the poll cursor is non-decreasing: after a page it equals the
maximum of its previous value and the returned timestamps; from an empty
cursor the page [100, 105, 103] lands on 105; and the cursor update is
computed independently of the queue and its capacity (it is advanced before
any enqueue and cannot be affected by backpressure). -/
theorem C6_cursor_monotonicity (v : Int) (items : List CopyTrading.PollItem)
    (cursor : Option Int) (cap cap' : Nat) (q q' : List CopyTrading.PollItem) :
    CopyTrading.updateCursorPage (some v) items =
      some (items.foldl (fun m it => max m it.timestamp) v) ∧
    (∀ w, CopyTrading.updateCursorPage (some v) items = some w → v ≤ w) ∧
    CopyTrading.updateCursorPage none
      [CopyTrading.PollItem.mk 100, CopyTrading.PollItem.mk 105,
       CopyTrading.PollItem.mk 103] = some 105 ∧
    (CopyTrading.processPage cap cursor q items).1 =
      (CopyTrading.processPage cap' cursor q' items).1 := by
  refine ⟨updateCursorPage_some items v, ?_, by decide, rfl⟩
  intro w hw
  rw [updateCursorPage_some items v] at hw
  injection hw with hw
  exact hw ▸ le_foldl_max items v

/-- Witness for C6: from cursor 0, the page [100, 105, 103] yields cursor
105, which is at least the previous cursor. -/
theorem C6_cursor_monotonicity_witness :
    CopyTrading.updateCursorPage (some 0)
      [CopyTrading.PollItem.mk 100, CopyTrading.PollItem.mk 105,
       CopyTrading.PollItem.mk 103] = some 105 ∧ (0 : Int) ≤ 105 :=
  ⟨by decide,
   (C6_cursor_monotonicity 0
      [CopyTrading.PollItem.mk 100, CopyTrading.PollItem.mk 105,
       CopyTrading.PollItem.mk 103] none 0 0 [] []).2.1 105 (by decide)⟩

/-- C7: a buy into an existing position recomputes the weighted-average
entry price as `(old_size*old_avg + delta_size*delta_price) /
(old_size + delta_size)` in both the Position Ledger and the paper
Execution Account; in particular buying 10 at 0.40 then 5 at 0.70 yields a
position of size 15 at average price 0.50. -/
theorem C7_weighted_average (t : PositionTracker.TrackerState)
    (acct : PaperTrading.PaperAccount) (market_id market_name mn2 : String)
    (pos : PositionTracker.PositionSnapshot) (ppos : PaperTrading.PaperPosition)
    (size price : ℚ) (ts now : String)
    (hpos : lookupA market_id t.positions = some pos)
    (hppos : lookupA market_id acct.positions = some ppos)
    (hafford : size * price ≤ acct.balance) :
    ((PositionTracker.record_trade t market_id market_name "buy" size price ts).1 =
      ⟨PositionTracker.TrackerStatus.increased, 0,
       PositionTracker.TrackerPayload.openPos
         ⟨pos.market_id, pos.market_name, pos.size + size,
          ((pos.size * pos.avg_price) + (size * price)) / (pos.size + size),
          pos.entry_time, ts⟩⟩) ∧
    (lookupA market_id
        (PaperTrading.place_order acct market_id "buy" size price mn2 now).2.1.positions =
      some ⟨ppos.market_id, ppos.market_name, ppos.side, ppos.size + size,
            ((ppos.size * ppos.avg_price) + (size * price)) / (ppos.size + size),
            ppos.entry_time⟩) ∧
    (lookupA "m"
        (PositionTracker.record_trade
          (PositionTracker.record_trade ⟨200, [], [], 0⟩ "m" "mn" "buy" 10 (2/5) "t0").2.1
          "m" "mn" "buy" 5 (7/10) "t1").2.1.positions =
      some ⟨"m", "mn", 15, 1/2, "t0", "t1"⟩) := by
  have hbuy : pyLower "buy" = "buy" := by decide
  refine ⟨?_, ?_, ?_⟩
  · simp [PositionTracker.record_trade, hbuy, hpos]
  · have hngt : ¬(size * price > acct.balance) := not_lt.mpr hafford
    have e : (PaperTrading.place_order acct market_id "buy" size price mn2 now).2.1.positions =
        updateA market_id
          ⟨ppos.market_id, ppos.market_name, ppos.side, ppos.size + size,
           ((ppos.size * ppos.avg_price) + (size * price)) / (ppos.size + size),
           ppos.entry_time⟩ acct.positions := by
      simp [PaperTrading.place_order, PaperTrading.finishOrder, hbuy, hngt, hppos]
    rw [e]
    exact lookupA_updateA_self market_id _ acct.positions ppos hppos
  · have h1 : (PositionTracker.record_trade ⟨200, [], [], 0⟩ "m" "mn" "buy" 10 (2/5) "t0").2.1 =
        ⟨200, [("m", ⟨"m", "mn", 10, 2/5, "t0", "t0"⟩)], [], 0⟩ := by
      simp [PositionTracker.record_trade, hbuy, lookupA]
    rw [h1]
    have havg : ((10 : ℚ) * (2/5) + 5 * (7/10)) / (10 + 5) = 1/2 := by norm_num
    simp [PositionTracker.record_trade, hbuy, lookupA, updateA]
    norm_num

/-- Witness for C7: concrete tracker and paper states holding (size 10,
avg 0.40) positions receive a buy of 5 at 0.70 and land on average 0.50. -/
theorem C7_weighted_average_witness :
    ((PositionTracker.record_trade ⟨200, [("m", ⟨"m", "mn", 10, 2/5, "t0", "t0"⟩)], [], 0⟩
        "m" "mn" "buy" 5 (7/10) "t1").1 =
      ⟨PositionTracker.TrackerStatus.increased, 0,
       PositionTracker.TrackerPayload.openPos
         ⟨"m", "mn", 10 + 5, ((10 * (2/5)) + (5 * (7/10))) / (10 + 5), "t0", "t1"⟩⟩) ∧
    (lookupA "m"
        (PaperTrading.place_order ⟨100, 100, [("m", ⟨"m", "mn", "long", 10, 2/5, "e"⟩)], [], 0⟩
          "m" "buy" 5 (7/10) "mn" "t1").2.1.positions =
      some ⟨"m", "mn", "long", 10 + 5, ((10 * (2/5)) + (5 * (7/10))) / (10 + 5), "e"⟩) := by
  obtain ⟨h1, h2, -⟩ :=
    C7_weighted_average ⟨200, [("m", ⟨"m", "mn", 10, 2/5, "t0", "t0"⟩)], [], 0⟩
      ⟨100, 100, [("m", ⟨"m", "mn", "long", 10, 2/5, "e"⟩)], [], 0⟩
      "m" "mn" "mn" ⟨"m", "mn", 10, 2/5, "t0", "t0"⟩ ⟨"m", "mn", "long", 10, 2/5, "e"⟩
      5 (7/10) "t1" "t1" rfl rfl (by norm_num)
  exact ⟨h1, h2⟩

/-- The dedup cache after `_handle_user_trade`: unchanged on a duplicate,
otherwise the key is appended (and the shrink policy applied); every branch
after the dedup gate leaves the cache untouched. -/
theorem handle_processed_trades_eq (sys : CopyTrading.CopySystem)
    (d : CopyTrading.TradeData) (today : Nat) (now : String) (lb : ℚ)
    (live : Option (Except String String)) :
    (CopyTrading.handle_user_trade sys d today now lb live).1.processed_trades =
      if CopyTrading.generate_trade_id d ∈ sys.processed_trades then
        sys.processed_trades
      else
        CopyTrading.shrinkDedupe
          (sys.processed_trades ++ [CopyTrading.generate_trade_id d]) := by
  by_cases hm : CopyTrading.generate_trade_id d ∈ sys.processed_trades
  · simp [CopyTrading.handle_user_trade, hm]
  · simp only [CopyTrading.handle_user_trade, hm, if_neg hm, if_false]
    repeat' first
      | rfl
      | split

/-- The freshly appended dedup key survives the shrink policy (in the
insertion-ordered model the shrink keeps the most recent 1500 keys, and the
new key is the most recent). -/
theorem mem_shrinkDedupe_append (l : List String) (x : String) :
    x ∈ CopyTrading.shrinkDedupe (l ++ [x]) := by
  unfold CopyTrading.shrinkDedupe
  split
  · rename_i h
    simp only [List.length_append, List.length_singleton] at h ⊢
    have hle : l.length + 1 - 1500 ≤ l.length := by omega
    rw [List.drop_append_of_le_length hle]
    exact List.mem_append_right _ (List.mem_singleton.mpr rfl)
  · exact List.mem_append_right _ (List.mem_singleton.mpr rfl)

/-- C8: the dedup key is a deterministic function of the event — the
transaction hash when a truthy one is present, otherwise the composite
`wallet_market_timestamp_side`; the key is in the dedup cache after a
processing pass; and while the key remains cached, handing the same event
to the consumer a second time is an idempotent no-op: the state (positions,
ledgers, risk counters, cache) is returned unchanged and zero durable
ledger writes are performed. -/
theorem C8_dedup_idempotence (sys : CopyTrading.CopySystem)
    (d : CopyTrading.TradeData) (today today' : Nat) (now now' : String)
    (lb lb' : ℚ) (live live' : Option (Except String String)) :
    (∀ tx, d.tx_hash = some tx → tx ≠ "" → CopyTrading.generate_trade_id d = tx) ∧
    (CopyTrading.truthyStr d.tx_hash = none →
     CopyTrading.truthyStr d.transactionHash = none →
      CopyTrading.generate_trade_id d =
        d.wallet ++ "_" ++ d.market ++ "_" ++ d.timestamp ++ "_" ++ d.side) ∧
    (CopyTrading.generate_trade_id d ∈
      (CopyTrading.handle_user_trade sys d today now lb live).1.processed_trades) ∧
    (∀ sys1 w1,
      CopyTrading.handle_user_trade sys d today now lb live = (sys1, w1) →
      CopyTrading.generate_trade_id d ∈ sys1.processed_trades →
      CopyTrading.handle_user_trade sys1 d today' now' lb' live' = (sys1, 0)) := by
  refine ⟨?_, ?_, ?_, ?_⟩
  · intro tx htx hne
    simp [CopyTrading.generate_trade_id, CopyTrading.truthyStr, htx, hne]
  · intro h1 h2
    simp [CopyTrading.generate_trade_id, h1, h2]
  · rw [handle_processed_trades_eq]
    by_cases hm : CopyTrading.generate_trade_id d ∈ sys.processed_trades
    · simp [hm]
    · simpa [hm] using
        mem_shrinkDedupe_append sys.processed_trades (CopyTrading.generate_trade_id d)
  · intro sys1 w1 _ hmem
    simp [CopyTrading.handle_user_trade, hmem]

/-- Witness for C8: a concrete pipeline state processes an event with
transaction hash `0xabc`; re-processing the resulting state with the same
event returns it unchanged with zero writes. -/
theorem C8_dedup_idempotence_witness :
    CopyTrading.handle_user_trade
      (CopyTrading.handle_user_trade
        ⟨"target", 1, 0, true, [], ⟨100, 10, 0, 0, [], 0, 0, false⟩,
         ⟨1000, 1000, [], [], 0⟩, ⟨200, [], [], 0⟩⟩
        ⟨some "0xabc", none, "other", "m", "tok", "buy", 1, 1/2, "123", "mn"⟩
        0 "t0" 0 none).1
      ⟨some "0xabc", none, "other", "m", "tok", "buy", 1, 1/2, "123", "mn"⟩
      1 "t1" 0 none =
    ((CopyTrading.handle_user_trade
        ⟨"target", 1, 0, true, [], ⟨100, 10, 0, 0, [], 0, 0, false⟩,
         ⟨1000, 1000, [], [], 0⟩, ⟨200, [], [], 0⟩⟩
        ⟨some "0xabc", none, "other", "m", "tok", "buy", 1, 1/2, "123", "mn"⟩
        0 "t0" 0 none).1, 0) :=
  (C8_dedup_idempotence
      ⟨"target", 1, 0, true, [], ⟨100, 10, 0, 0, [], 0, 0, false⟩,
       ⟨1000, 1000, [], [], 0⟩, ⟨200, [], [], 0⟩⟩
      ⟨some "0xabc", none, "other", "m", "tok", "buy", 1, 1/2, "123", "mn"⟩
      0 1 "t0" "t1" 0 0 none none).2.2.2
    (CopyTrading.handle_user_trade
      ⟨"target", 1, 0, true, [], ⟨100, 10, 0, 0, [], 0, 0, false⟩,
       ⟨1000, 1000, [], [], 0⟩, ⟨200, [], [], 0⟩⟩
      ⟨some "0xabc", none, "other", "m", "tok", "buy", 1, 1/2, "123", "mn"⟩
      0 "t0" 0 none).1
    (CopyTrading.handle_user_trade
      ⟨"target", 1, 0, true, [], ⟨100, 10, 0, 0, [], 0, 0, false⟩,
       ⟨1000, 1000, [], [], 0⟩, ⟨200, [], [], 0⟩⟩
      ⟨some "0xabc", none, "other", "m", "tok", "buy", 1, 1/2, "123", "mn"⟩
      0 "t0" 0 none).2
    rfl
    (C8_dedup_idempotence
      ⟨"target", 1, 0, true, [], ⟨100, 10, 0, 0, [], 0, 0, false⟩,
       ⟨1000, 1000, [], [], 0⟩, ⟨200, [], [], 0⟩⟩
      ⟨some "0xabc", none, "other", "m", "tok", "buy", 1, 1/2, "123", "mn"⟩
      0 1 "t0" "t1" 0 0 none none).2.2.1

/-- The limit-order validation passes (empty error list) exactly when none
of the four rejection conditions holds. -/
theorem validate_order_nil_iff (token_id side : String) (size price : ℚ) :
    OrderExecutor.validate_order token_id side size (some price) = [] ↔
      ¬(token_id = "" ∨ ¬(pyLower side = "buy" ∨ pyLower side = "sell") ∨
        size ≤ 0 ∨ price ≤ 0 ∨ price > 1) := by
  by_cases h1 : token_id = "" <;>
  by_cases h2 : pyLower side = "buy" ∨ pyLower side = "sell" <;>
  by_cases h3 : size ≤ (0 : ℚ) <;>
  by_cases h4 : price ≤ 0 ∨ price > (1 : ℚ) <;>
  simp [OrderExecutor.validate_order, h1, h2, h3, h4]

/-- C9: the limit-order path fails with a validation-failure result exactly
when the token id is empty, the side is not (case-insensitively) buy or
sell, the size is non-positive, or the price lies outside the half-open
unit interval (0, 1]; on a validation failure nothing is routed to the
paper account or the live venue client, the account is untouched and no
write happens. -/
theorem C9_limit_order_validation (paper : Bool)
    (acct : PaperTrading.PaperAccount) (live : Option (Except String String))
    (token_id side : String) (size price : ℚ)
    (market_id market_name now : String) :
    (OrderExecutor.isValidationFailure
        (OrderExecutor.execute_limit_order paper acct live token_id side size price
          market_id market_name now).result = true ↔
      (token_id = "" ∨ ¬(pyLower side = "buy" ∨ pyLower side = "sell") ∨
        size ≤ 0 ∨ price ≤ 0 ∨ price > 1)) ∧
    (OrderExecutor.isValidationFailure
        (OrderExecutor.execute_limit_order paper acct live token_id side size price
          market_id market_name now).result = true →
      OrderExecutor.execute_limit_order paper acct live token_id side size price
          market_id market_name now =
        ⟨OrderExecutor.ExecResult.validationFailed
           (OrderExecutor.validate_order token_id side size (some price)) paper,
         acct, false, false, false⟩) := by
  by_cases hv : OrderExecutor.validate_order token_id side size (some price) = []
  · have hfalse : OrderExecutor.isValidationFailure
        (OrderExecutor.execute_limit_order paper acct live token_id side size price
          market_id market_name now).result = false := by
      simp only [OrderExecutor.execute_limit_order, hv]
      rw [if_neg (fun h => h rfl)]
      repeat' first
        | rfl
        | split
    constructor
    · rw [hfalse]
      simp only [Bool.false_eq_true, false_iff]
      exact (validate_order_nil_iff token_id side size price).mp hv
    · intro habs
      rw [hfalse] at habs
      exact absurd habs (by simp)
  · have htrue : OrderExecutor.execute_limit_order paper acct live token_id side size price
        market_id market_name now =
        ⟨OrderExecutor.ExecResult.validationFailed
           (OrderExecutor.validate_order token_id side size (some price)) paper,
         acct, false, false, false⟩ := by
      simp [OrderExecutor.execute_limit_order, hv]
    constructor
    · rw [htrue]
      simp only [OrderExecutor.isValidationFailure, true_iff]
      exact not_not.mp ((not_congr (validate_order_nil_iff token_id side size price)).mp hv)
    · intro _
      exact htrue

/-- Witness for C9: an empty token id makes the limit-order path return the
validation failure without touching the paper account or routing
anywhere. -/
theorem C9_limit_order_validation_witness :
    OrderExecutor.execute_limit_order true ⟨1000, 1000, [], [], 0⟩ none
        "" "buy" 1 (1/2) "m" "mn" "t" =
      ⟨OrderExecutor.ExecResult.validationFailed
         (OrderExecutor.validate_order "" "buy" 1 (some (1/2))) true,
       ⟨1000, 1000, [], [], 0⟩, false, false, false⟩ :=
  (C9_limit_order_validation true ⟨1000, 1000, [], [], 0⟩ none "" "buy" 1 (1/2)
      "m" "mn" "t").2
    ((C9_limit_order_validation true ⟨1000, 1000, [], [], 0⟩ none "" "buy" 1 (1/2)
        "m" "mn" "t").1.mpr (Or.inl rfl))

/-- C10: a paper order whose side is neither buy nor sell (after
lower-casing) is not rejected: `place_order` reports success with balance,
positions and cumulative PnL untouched, yet still appends a trade record to
the history and performs a durable write. -/
theorem C10_invalid_side_passthrough (acct : PaperTrading.PaperAccount)
    (market_id side : String) (size price : ℚ) (market_name now : String)
    (hb : ¬(pyLower side = "buy")) (hs : ¬(pyLower side = "sell")) :
    PaperTrading.place_order acct market_id side size price market_name now =
      (PaperTrading.PaperOrderResult.success
         ⟨now, market_id, market_name, side, size, price, size * price, acct.balance⟩
         acct.balance acct.total_pnl,
       { acct with trades := acct.trades ++
           [⟨now, market_id, market_name, side, size, price, size * price, acct.balance⟩] },
       true) := by
  simp [PaperTrading.place_order, PaperTrading.finishOrder, hb, hs]

/-- Witness for C10: side `hold` passes straight through to the history on
a fresh account. -/
theorem C10_invalid_side_passthrough_witness :
    PaperTrading.place_order ⟨1000, 1000, [], [], 0⟩ "m" "hold" 2 (1/2) "mn" "t" =
      (PaperTrading.PaperOrderResult.success
         ⟨"t", "m", "mn", "hold", 2, 1/2, 2 * (1/2), 1000⟩ 1000 0,
       ⟨1000, 1000, [], [⟨"t", "m", "mn", "hold", 2, 1/2, 2 * (1/2), 1000⟩], 0⟩,
       true) :=
  C10_invalid_side_passthrough ⟨1000, 1000, [], [], 0⟩ "m" "hold" 2 (1/2) "mn" "t"
    (by decide) (by decide)
